import Mathlib

set_option maxHeartbeats 1000000
set_option maxRecDepth 4000

deriving instance DecidableEq for Except

/-!
Shallow embedding of the Ymir image-processing Lambda@Edge handler
(`src/index.js`, the `exports.handler` pipeline together with its helper
functions `shouldSkipProcessing`, `extractBucketDetails`,
`shouldSkipImageProcessing`, `processImageFormat`, `applyExplicitFormat`,
`calculateQuality`, `applyResize`, `isResponseTooLarge`), plus the
JavaScript primitives the code relies on (`parseInt`, `URLSearchParams`,
`decodeURIComponent`, `String.prototype.match`, base64 encoding,
`Buffer.byteLength`).

Modelling notes:
* Strings are Lean `String`s; only ASCII inputs are exercised, so ASCII
  case folding and single-byte percent decoding model the JavaScript
  behaviour exactly on every input used below.
* The S3 client, the `animated-gif-detector` predicate and the sharp
  codec are external collaborators; they are passed in as oracles.
  The sharp image object is modelled as the list of configuration
  operations applied to it before the single `toBuffer` materialisation.
* JavaScript exceptions are modelled with `Except Unit`; the handler's
  outer `try`/`catch` turns an error into one diagnostic log line and
  no callback invocation.
-/

/-- Numeric value of an ASCII hex digit, if the character is one. -/
def hexVal? (c : Char) : Option Nat :=
  if '0' ≤ c ∧ c ≤ '9' then some (c.toNat - 48)
  else if 'a' ≤ c ∧ c ≤ 'f' then some (c.toNat - 87)
  else if 'A' ≤ c ∧ c ≤ 'F' then some (c.toNat - 55)
  else none

/-- Strict percent-decoding, as performed by `decodeURIComponent`: a `%`
not followed by two hex digits raises a `URIError`.  Decoded bytes are
mapped to the character of the same code point (exact for ASCII;
multi-byte UTF-8 sequences are not modelled). -/
def percentDecodeStrict : List Char → Option (List Char)
  | [] => some []
  | '%' :: rest =>
    match rest with
    | h1 :: h2 :: rest2 =>
      match hexVal? h1, hexVal? h2 with
      | some a, some b => (percentDecodeStrict rest2).map (fun cs => Char.ofNat (a * 16 + b) :: cs)
      | _, _ => none
    | _ => none
  | c :: rest => (percentDecodeStrict rest).map (fun cs => c :: cs)

/-- `request.uri.substring(1)`: drop the leading slash. -/
def jsSubstringFrom1 (s : String) : String :=
  String.mk (s.toList.drop 1)

/-- `decodeURIComponent`, throwing on malformed percent escapes. -/
def jsDecodeURIComponent (s : String) : Except Unit String :=
  match percentDecodeStrict s.toList with
  | none => Except.error ()
  | some cs => Except.ok (String.mk cs)

/-- Lenient percent-decoding, as performed by `URLSearchParams`
parsing: a malformed `%` escape is kept literally and scanning resumes
at the next character.  The fuel argument only bounds the recursion;
`percentDecodeLenient` supplies enough for the whole list. -/
def percentDecodeLenientFuel : Nat → List Char → List Char
  | 0, l => l
  | _ + 1, [] => []
  | f + 1, '%' :: h1 :: h2 :: rest2 =>
    match hexVal? h1, hexVal? h2 with
    | some a, some b => Char.ofNat (a * 16 + b) :: percentDecodeLenientFuel f rest2
    | _, _ => '%' :: percentDecodeLenientFuel f (h1 :: h2 :: rest2)
  | f + 1, '%' :: t => '%' :: percentDecodeLenientFuel f t
  | f + 1, c :: rest => c :: percentDecodeLenientFuel f rest

/-- Lenient percent-decoding of a whole character list. -/
def percentDecodeLenient (cs : List Char) : List Char :=
  percentDecodeLenientFuel cs.length cs

/-- `application/x-www-form-urlencoded` decoding of one name or value:
`+` becomes a space, then percent escapes are decoded leniently. -/
def formDecodeL (cs : List Char) : String :=
  String.mk (percentDecodeLenient (cs.map (fun c => if c = '+' then ' ' else c)))

/-- Splitting a character list on `&` separators. -/
def splitOnAmp : List Char → List (List Char)
  | [] => [[]]
  | '&' :: rest => [] :: splitOnAmp rest
  | c :: rest =>
    match splitOnAmp rest with
    | h :: t => (c :: h) :: t
    | [] => [[c]]

/-- `new URLSearchParams(qs)`: the ordered list of decoded (name, value)
pairs.  A leading `?` is stripped, empty `&`-pieces are skipped, and a
piece without `=` yields the empty value. -/
def parseParams (qs : String) : List (String × String) :=
  let cs := match qs.toList with
    | '?' :: rest => rest
    | l => l
  (splitOnAmp cs).filterMap fun piece =>
    if piece = [] then none
    else
      let name := piece.takeWhile (fun c => c ≠ '=')
      let value := match piece.dropWhile (fun c => c ≠ '=') with
        | _ :: v => v
        | [] => []
      some (formDecodeL name, formDecodeL value)

/-- `URLSearchParams.prototype.get`: first value for the name, else null. -/
def paramsGet (ps : List (String × String)) (name : String) : Option String :=
  (ps.find? (fun p => p.1 = name)).map (fun p => p.2)

/-- `URLSearchParams.prototype.has`. -/
def paramsHas (ps : List (String × String)) (name : String) : Bool :=
  (ps.find? (fun p => p.1 = name)).isSome

/-- ASCII whitespace stripped by `parseInt`. -/
def isJsSpace (c : Char) : Bool :=
  c = ' ' ∨ c = '\t' ∨ c = '\n' ∨ c = '\r' ∨ c.toNat = 11 ∨ c.toNat = 12

/-- Value of the maximal leading run of decimal digits. -/
def digitsPrefixVal : List Char → Nat → Nat
  | c :: rest, acc => if c.isDigit then digitsPrefixVal rest (acc * 10 + (c.toNat - 48)) else acc
  | [], acc => acc

/-- The maximal leading run of decimal digits, `none` when there is none. -/
def leadingDigits : List Char → Option Nat
  | c :: rest => if c.isDigit then some (digitsPrefixVal (c :: rest) 0) else none
  | [] => none

/-- `parseInt(s, 10)`: skip whitespace, optional sign, maximal digit
prefix; `none` models `NaN`. -/
def jsParseIntStr (s : String) : Option Int :=
  match s.toList.dropWhile isJsSpace with
  | '-' :: rest => (leadingDigits rest).map (fun n => -(n : Int))
  | '+' :: rest => (leadingDigits rest).map (fun n => (n : Int))
  | rest => (leadingDigits rest).map (fun n => (n : Int))

/-- `parseInt(v, 10)` where `v` is `URLSearchParams.get`'s result:
`parseInt(null, 10)` is `NaN`. -/
def jsParseInt (v : Option String) : Option Int :=
  match v with
  | none => none
  | some s => jsParseIntStr s

/-- `parseInt(v, 10) || d`: both `NaN` and `0` are falsy. -/
def parseIntOr (v : Option String) (d : Int) : Int :=
  match jsParseInt v with
  | none => d
  | some n => if n = 0 then d else n

/-- `parseInt(v, 10) || null`: both `NaN` and `0` become null. -/
def jsParseIntOrNull (v : Option String) : Option Int :=
  match jsParseInt v with
  | none => none
  | some n => if n = 0 then none else some n

/-- ASCII lower-casing on code points, used for the regex `i` flag and
`String.prototype.toLowerCase` (ASCII fragment). -/
def lowerN (n : Nat) : Nat :=
  if 65 ≤ n ∧ n ≤ 90 then n + 32 else n

/-- Code points of a character list, lower-cased. -/
def lowListN (l : List Char) : List Nat :=
  l.map (fun c => lowerN c.toNat)

/-- Case-insensitive "the pattern `p` is a prefix of `s`". -/
def ciStartsWith (p s : List Char) : Bool :=
  lowListN (s.take p.length) = lowListN p

/-- The literal tail `.amazonaws.com` of the host regex. -/
def amazonawsComL : List Char := ".amazonaws.com".toList

/-- One attempt of the regex `([^.]*)\.s3(\.[^.]*)?\.amazonaws\.com` (flag
`i`) at a fixed start position: greedy `[^.]*` capture, then `.s3`, then
the greedy optional `.region` group, then the literal tail.  Returns the
capture group on success. -/
def tryS3At (cs : List Char) : Option (List Char) :=
  let bucket := cs.takeWhile (fun c => c ≠ '.')
  match cs.dropWhile (fun c => c ≠ '.') with
  | '.' :: r1 =>
    if ciStartsWith ['s', '3'] r1 then
      let r2 := r1.drop 2
      match r2 with
      | '.' :: r3 =>
        if ciStartsWith amazonawsComL (r3.dropWhile (fun c => c ≠ '.')) then some bucket
        else if ciStartsWith amazonawsComL r2 then some bucket
        else none
      | _ => if ciStartsWith amazonawsComL r2 then some bucket else none
    else none
  | _ => none

/-- `String.prototype.match` with the host regex: leftmost successful
start position wins. -/
def s3Search : List Char → Option (List Char)
  | [] => none
  | c :: rest =>
    match tryS3At (c :: rest) with
    | some b => some b
    | none => s3Search rest

/-- Substring containment over character lists. -/
def listContains : List Char → List Char → Bool
  | [], p => p.isPrefixOf ([] : List Char)
  | c :: t, p => p.isPrefixOf (c :: t) || listContains t p

/-- `s.match(pat)` for a pattern without regex metacharacters:
substring search. -/
def strContains (s pat : String) : Bool :=
  listContains s.toList pat.toList

/-- One entry of a CloudFront header value list. -/
structure HeaderEntry where
  key : Option String
  value : String
deriving DecidableEq, Repr

/-- The `s3` part of a CloudFront origin descriptor. -/
structure S3OriginInfo where
  domainName : String
deriving DecidableEq, Repr

/-- A CloudFront origin descriptor. -/
structure OriginInfo where
  s3 : Option S3OriginInfo
deriving DecidableEq, Repr

/-- The CloudFront request of the edge event. -/
structure CFRequest where
  uri : String
  querystring : String
  origin : Option OriginInfo
  headers : List (String × List HeaderEntry)
deriving DecidableEq, Repr

/-- The CloudFront response of the edge event. -/
structure CFResponse where
  status : String
  headers : List (String × List HeaderEntry)
  body : Option String
  bodyEncoding : Option String
deriving DecidableEq, Repr

/-- The edge event: exactly one record with a request and a response. -/
structure CFEvent where
  request : CFRequest
  response : CFResponse
deriving DecidableEq, Repr

/-- The S3 `GetObject` result: content type and (already drained) body
bytes.  `streamToBuffer` is the identity on this representation. -/
structure StoredObject where
  ContentType : Option String
  Body : List Nat
deriving DecidableEq, Repr

/-- Resize fit modes (`sharp.fit.cover` / `sharp.fit.inside`). -/
inductive Fit where
  | cover
  | inside
deriving DecidableEq, Repr

/-- The options object passed to `image.resize`. -/
structure ResizeSpec where
  width : Option Int
  height : Option Int
  fit : Fit
  withoutEnlargement : Bool
deriving DecidableEq, Repr

/-- One configuration call on the sharp image object. -/
inductive ImageOp where
  | png
  | webp (quality : Option Int)
  | jpeg
  | resize (spec : ResizeSpec)
deriving DecidableEq, Repr

/-- A sharp image object: the configuration calls applied so far. -/
abbrev Image := List ImageOp

/-- The external collaborators: S3 fetch, animated-GIF detector, and the
sharp `toBuffer` materialisation (receiving the configured operations
and the source bytes). -/
structure Oracles where
  fetch : String → String → Except Unit StoredObject
  animated : List Nat → Bool
  toBuffer : Image → List Nat → Except Unit (List Nat)

/-- Header-map lookup (`headers[name]`). -/
def headerLookup (headers : List (String × List HeaderEntry)) (name : String) :
    Option (List HeaderEntry) :=
  (headers.find? (fun p => p.1 = name)).map (fun p => p.2)

/-- Header-map assignment (`headers[name] = v`). -/
def setHeader (headers : List (String × List HeaderEntry)) (name : String)
    (v : List HeaderEntry) : List (String × List HeaderEntry) :=
  if headers.any (fun p => p.1 = name) then
    headers.map (fun p => if p.1 = name then (p.1, v) else p)
  else
    headers ++ [(name, v)]

/-- JavaScript falsiness of an optional string (`undefined`/`null`/`""`). -/
def jsFalsyStr : Option String → Bool
  | none => true
  | some s => s = ""

/-- `shouldSkipProcessing` (src/index.js lines 169-176). -/
def shouldSkipProcessing (request : CFRequest) (response : CFResponse) : Bool :=
  decide (response.status ≠ "200") ||
  match request.origin with
  | none => true
  | some origin =>
    match origin.s3 with
    | none => true
    | some s3o => decide (s3o.domainName = "")

/-- `extractBucketDetails` (src/index.js lines 184-192): runs the host
regex and rejects an empty capture.  Accessing `request.origin.s3`
when absent would throw. -/
def extractBucketDetails (request : CFRequest) : Except Unit (Option String) :=
  match request.origin.bind (fun o => o.s3) with
  | none => Except.error ()
  | some s3o =>
    Except.ok (match s3Search s3o.domainName.toList with
      | some bucket => if bucket = [] then none else some (String.mk bucket)
      | none => none)

/-- `shouldSkipImageProcessing` (src/index.js lines 213-215). -/
def shouldSkipImageProcessing (object : StoredObject) (allowed : List String) : Bool :=
  jsFalsyStr object.ContentType || !(allowed.contains (object.ContentType.getD ""))

/-- The allow list of source content types (src/index.js line 108). -/
def allowedContentTypes : List String := ["image/gif", "image/jpeg", "image/png"]

/-- `Math.round` applied to an already integral number is the identity;
`calculateQuality` only ever rounds integers. -/
def mathRoundInt (n : Int) : Int := n

/-- `calculateQuality` (src/index.js lines 279-282). -/
def calculateQuality (params : List (String × String)) : Int :=
  mathRoundInt (min (max (parseIntOr (paramsGet params "quality") 82) 0) 100)

/-- The options object built by `applyResize` (src/index.js lines 293-298). -/
def resizeSpecOf (params : List (String × String)) : ResizeSpec :=
  { width := jsParseIntOrNull (paramsGet params "width")
    height := jsParseIntOrNull (paramsGet params "height")
    fit := if paramsHas params "cropped" then Fit.cover else Fit.inside
    withoutEnlargement := true }

/-- `applyResize` (src/index.js lines 292-299). -/
def applyResize (image : Image) (params : List (String × String)) : Image :=
  image ++ [ImageOp.resize (resizeSpecOf params)]

/-- ASCII fragment of `Char` lower-casing (`String.prototype.toLowerCase`
only differs from it outside ASCII). -/
def charLowerAscii (c : Char) : Char :=
  if 65 ≤ c.toNat ∧ c.toNat ≤ 90 then Char.ofNat (c.toNat + 32) else c

/-- `String.prototype.toLowerCase` (ASCII fragment). -/
def jsToLowerCase (s : String) : String :=
  String.mk (s.toList.map charLowerAscii)

/-- `applyExplicitFormat` (src/index.js lines 255-270). -/
def applyExplicitFormat (image : Image) (formatSetting : String) :
    Image × Option (List HeaderEntry) :=
  match jsToLowerCase formatSetting with
  | "webp" => (image ++ [ImageOp.webp none], some [⟨some "Content-Type", "image/webp"⟩])
  | "png" => (image ++ [ImageOp.png], some [⟨some "Content-Type", "image/png"⟩])
  | "jpeg" => (image ++ [ImageOp.jpeg], some [⟨some "Content-Type", "image/jpeg"⟩])
  | "jpg" => (image ++ [ImageOp.jpeg], some [⟨some "Content-Type", "image/jpeg"⟩])
  | _ => (image, none)

/-- `processImageFormat` (src/index.js lines 227-246).  Reading
`headers['accept'][0].value` throws when the accept key maps to an
empty array. -/
def processImageFormat (image : Image) (object : StoredObject) (request : CFRequest)
    (params : List (String × String)) (formatSetting : Option String) :
    Except Unit (Image × Option (List HeaderEntry)) :=
  if !jsFalsyStr formatSetting && decide (formatSetting ≠ some "auto") then
    Except.ok (applyExplicitFormat image (formatSetting.getD ""))
  else
    let st :=
      if object.ContentType = some "image/gif" then
        (image ++ [ImageOp.png], some [HeaderEntry.mk (some "Content-Type") "image/png"])
      else (image, (none : Option (List HeaderEntry)))
    match headerLookup request.headers "accept" with
    | none => Except.ok st
    | some [] => Except.error ()
    | some (e :: _) =>
      if strContains e.value "image/webp" then
        Except.ok (st.1 ++ [ImageOp.webp (some (calculateQuality params))],
          some [HeaderEntry.mk (some "Content-Type") "image/webp"])
      else Except.ok st

/-- The format stage of the handler (src/index.js lines 131-135): the
explicit `format=original` opt-out skips `processImageFormat`. -/
def formatStage (object : StoredObject) (request : CFRequest)
    (params : List (String × String)) (formatParam : Option String) :
    Except Unit (Image × Option (List HeaderEntry)) :=
  if formatParam = some "original" then Except.ok (([] : Image), none)
  else processImageFormat [] object request params formatParam

/-- The base64 alphabet. -/
def b64Table : List Char :=
  "ABCDEFGHIJKLMNOPQRSTUVWXYZabcdefghijklmnopqrstuvwxyz0123456789+/".toList

/-- The base64 digit for a 6-bit group. -/
def b64char (n : Nat) : Char := b64Table.getD (n % 64) 'A'

/-- Standard base64 of a byte list (`buffer.toString('base64')`). -/
def base64EncodeChars : List Nat → List Char
  | b1 :: b2 :: b3 :: rest =>
    b64char (b1 / 4) :: b64char (b1 % 4 * 16 + b2 / 16) ::
      b64char (b2 % 16 * 4 + b3 / 64) :: b64char (b3 % 64) :: base64EncodeChars rest
  | [b1, b2] => [b64char (b1 / 4), b64char (b1 % 4 * 16 + b2 / 16), b64char (b2 % 16 * 4), '=']
  | [b1] => [b64char (b1 / 4), b64char (b1 % 4 * 16), '=', '=']
  | [] => []

/-- `buffer.toString('base64')` as a string. -/
def base64String (bytes : List Nat) : String :=
  String.mk (base64EncodeChars bytes)

/-- UTF-8 byte count of a character list. -/
def utf8Len : List Char → Nat
  | [] => 0
  | c :: cs => c.utf8Size + utf8Len cs

/-- `Buffer.byteLength(s)`: the UTF-8 byte length of the string. -/
def bufferByteLength (s : String) : Nat := utf8Len s.data

/-- `isResponseTooLarge` (src/index.js lines 308-310): the ceiling is
measured on the base64 string's UTF-8 byte length. -/
def isResponseTooLarge (responseBody : String) : Bool :=
  decide (1330000 < bufferByteLength responseBody)

/-- The observable outcome of one invocation: the responses passed to
`callback`, the number of diagnostic log lines, and the arguments of
the S3 fetch and sharp `toBuffer` calls that were made. -/
structure Outcome where
  callbackResponses : List CFResponse
  logLines : Nat
  fetchCalls : List (String × String)
  toBufferCalls : List (Image × List Nat)
deriving DecidableEq, Repr

/-- `exports.handler` (src/index.js lines 93-159). -/
def handler (ev : CFEvent) (o : Oracles) : Outcome :=
  let request := ev.request
  let response := ev.response
  if shouldSkipProcessing request response then ⟨[response], 0, [], []⟩
  else
    match extractBucketDetails request with
    | Except.error _ => ⟨[], 1, [], []⟩
    | Except.ok none => ⟨[response], 0, [], []⟩
    | Except.ok (some bucket) =>
      match jsDecodeURIComponent (jsSubstringFrom1 request.uri) with
      | Except.error _ => ⟨[], 1, [], []⟩
      | Except.ok key =>
        match o.fetch bucket key with
        | Except.error _ => ⟨[], 1, [(bucket, key)], []⟩
        | Except.ok object =>
          if shouldSkipImageProcessing object allowedContentTypes then
            ⟨[response], 0, [(bucket, key)], []⟩
          else
            let objectBody := object.Body
            let params := parseParams request.querystring
            let formatParam := paramsGet params "format"
            if decide (object.ContentType = some "image/gif") &&
                (o.animated objectBody || decide (formatParam = some "original")) then
              ⟨[response], 0, [(bucket, key)], []⟩
            else
              match formatStage object request params formatParam with
              | Except.error _ => ⟨[], 1, [(bucket, key)], []⟩
              | Except.ok (image0, contentType) =>
                let image :=
                  if paramsHas params "width" || paramsHas params "height" then
                    applyResize image0 params
                  else image0
                match o.toBuffer image objectBody with
                | Except.error _ => ⟨[], 1, [(bucket, key)], [(image, objectBody)]⟩
                | Except.ok buffer =>
                  let responseBody := base64String buffer
                  if isResponseTooLarge responseBody then
                    ⟨[response], 0, [(bucket, key)], [(image, objectBody)]⟩
                  else
                    let response1 :=
                      match contentType with
                      | some ct => { response with headers := setHeader response.headers "content-type" ct }
                      | none => response
                    ⟨[{ response1 with body := some responseBody, bodyEncoding := some "base64" }],
                      0, [(bucket, key)], [(image, objectBody)]⟩

/-- A typical origin response carried by the edge event. -/
def sampleResponse : CFResponse :=
  ⟨"200", [("content-type", [⟨some "Content-Type", "image/gif"⟩])], none, none⟩

/-- A request against a well-formed S3 origin. -/
def sampleRequest (qs : String) (hdrs : List (String × List HeaderEntry)) : CFRequest :=
  ⟨"/img.png", qs, some ⟨some ⟨"mybucket.s3.amazonaws.com"⟩⟩, hdrs⟩

/-- Collaborators serving a two-byte GIF object. -/
def gifOracles (anim : Bool) : Oracles :=
  ⟨fun _ _ => Except.ok ⟨some "image/gif", [9, 9]⟩, fun _ => anim, fun _ _ => Except.ok [1, 2, 3]⟩

/-- Collaborators serving a one-byte JPEG object. -/
def jpegOracles : Oracles :=
  ⟨fun _ _ => Except.ok ⟨some "image/jpeg", [9]⟩, fun _ => false, fun _ _ => Except.ok [1, 2, 3]⟩

/-- Collaborators whose fetch always throws. -/
def failingFetchOracles : Oracles :=
  ⟨fun _ _ => Except.error (), fun _ => false, fun _ _ => Except.error ()⟩

/-- A request carrying an unrecognized explicit format directive next to
a webp-capable accept header. -/
def cx4Request : CFRequest :=
  ⟨"/img.gif", "format=avif", some ⟨some ⟨"mybucket.s3.amazonaws.com"⟩⟩,
    [("accept", [⟨none, "image/webp"⟩])]⟩

/-- Collaborators whose codec produces a megabyte of output. -/
def bigBufferOracles : Oracles :=
  ⟨fun _ _ => Except.ok ⟨some "image/jpeg", [9]⟩, fun _ => false,
    fun _ _ => Except.ok (List.replicate 1000000 0)⟩

theorem headerLookup_setHeader (hs : List (String × List HeaderEntry)) (n : String)
    (v : List HeaderEntry) : headerLookup (setHeader hs n v) n = some v := by
  unfold setHeader
  by_cases h : hs.any (fun p => p.1 = n)
  · simp only [h, if_true]
    induction hs with
    | nil => simp at h
    | cons p t ih =>
      by_cases hp : p.1 = n
      · simp [headerLookup, List.find?, hp]
      · simp only [List.any_cons, hp, decide_eq_true_eq] at h
        simp only [List.map_cons, if_neg hp]
        have := ih (by simpa [hp] using h)
        simpa [headerLookup, List.find?, hp] using this
  · simp only [h, if_false]
    induction hs with
    | nil => simp [headerLookup, List.find?]
    | cons p t ih =>
      have hp : ¬ p.1 = n := by
        intro hc; exact h (by simp [List.any_cons, hc])
      simp only [List.cons_append]
      have ht : ¬ t.any (fun p => p.1 = n) := by
        intro hc; exact h (by simp [List.any_cons, hc])
      simpa [headerLookup, List.find?, hp] using ih ht

/-- C1: every failed eligibility check — response status other than the
literal "200", missing S3 origin or empty domain name, a fetched object
whose content type is absent or outside the allow list, or a GIF that
the animated detector reports animated — makes the handler return the
input response unchanged, with no log line, whatever the query string
says. -/
theorem c1_ineligible_passthrough (ev : CFEvent) (o : Oracles)
    (h : shouldSkipProcessing ev.request ev.response = true
      ∨ ∃ bucket key object,
          extractBucketDetails ev.request = Except.ok (some bucket) ∧
          jsDecodeURIComponent (jsSubstringFrom1 ev.request.uri) = Except.ok key ∧
          o.fetch bucket key = Except.ok object ∧
          (shouldSkipImageProcessing object allowedContentTypes = true ∨
            (object.ContentType = some "image/gif" ∧ o.animated object.Body = true))) :
    (handler ev o).callbackResponses = [ev.response] ∧ (handler ev o).logLines = 0 := by
  obtain h | ⟨bucket, key, object, hex, hdec, hfetch, hrest⟩ := h
  · simp [handler, h]
  · by_cases hs : shouldSkipProcessing ev.request ev.response
    · simp [handler, hs]
    · by_cases hsi : shouldSkipImageProcessing object allowedContentTypes
      · simp [handler, hs, hex, hdec, hfetch, hsi]
      · obtain hrest | ⟨hgif, hanim⟩ := hrest
        · exact absurd hrest hsi
        · simp [handler, hs, hex, hdec, hfetch, hsi, hgif, hanim]

theorem c1_ineligible_passthrough_witness :
    (handler ⟨sampleRequest "width=100" [], ⟨"404", [], none, none⟩⟩ failingFetchOracles).callbackResponses
        = [⟨"404", [], none, none⟩] ∧
      (handler ⟨sampleRequest "width=100" [], ⟨"404", [], none, none⟩⟩ failingFetchOracles).logLines = 0 :=
  c1_ineligible_passthrough _ _ (Or.inl (by decide))

/-- C6: the effective webp quality is the `parseInt` result clamped to
[0, 100], with 82 as the default for a missing or non-numeric (or, per
C10, zero) value; in particular 999 clamps to 100, -50 clamps to 0,
and a non-numeric value yields 82. -/
theorem c6_quality_clamped (v : String) (n : Int) :
    (jsParseInt (some v) = some n → n ≠ 0 →
        calculateQuality [("quality", v)] = min (max n 0) 100) ∧
    (jsParseInt (some v) = none → calculateQuality [("quality", v)] = 82) ∧
    calculateQuality [] = 82 ∧
    calculateQuality (parseParams "quality=999") = 100 ∧
    calculateQuality (parseParams "quality=-50") = 0 ∧
    calculateQuality (parseParams "quality=abc") = 82 := by
  refine ⟨?_, ?_, by decide, by decide, by decide, by decide⟩
  · intro hp hn
    simp [calculateQuality, mathRoundInt, parseIntOr, paramsGet, List.find?, jsParseInt] at hp ⊢
    simp [hp, hn]
  · intro hp
    simp [calculateQuality, mathRoundInt, parseIntOr, paramsGet, List.find?, jsParseInt] at hp ⊢
    simp [hp]

theorem c6_quality_clamped_witness :
    jsParseInt (some "250") = some 250 ∧
      calculateQuality [("quality", "250")] = min (max (250 : Int) 0) 100 :=
  ⟨by decide, (c6_quality_clamped "250" 250).1 (by decide) (by decide)⟩

/-- C6 counterexample: at `quality=0` the integer parse yields 0 and the
claimed clamp to [0,100] demands an effective quality of 0, but
`parseInt(...) || 82` treats 0 as falsy and the code produces the
default 82 instead. -/
theorem c6_zero_quality_counterexample :
    jsParseInt (some "0") = some (0 : Int) ∧
      calculateQuality (parseParams "quality=0") = 82 ∧
      (82 : Int) ≠ min (max (0 : Int) 0) 100 := by
  decide

/-- C10: a directive value that `parseInt` maps to 0 is treated as
absent, because JavaScript's `||` default treats 0 as falsy: quality
falls back to 82 and a zero width or height is passed to the resize as
a null (unconstrained) axis. -/
theorem c10_zero_treated_as_absent (v : String)
    (h : jsParseInt (some v) = some (0 : Int)) :
    calculateQuality [("quality", v)] = 82 ∧
    (resizeSpecOf [("width", v)]).width = none ∧
    (resizeSpecOf [("height", v)]).height = none := by
  refine ⟨?_, ?_, ?_⟩ <;>
    simp [calculateQuality, mathRoundInt, parseIntOr, resizeSpecOf, jsParseIntOrNull,
      paramsGet, List.find?, jsParseInt] at h ⊢ <;>
    simp [h]

theorem c10_zero_treated_as_absent_witness :
    jsParseInt (some "0") = some (0 : Int) ∧
      (calculateQuality [("quality", "0")] = 82 ∧
        (resizeSpecOf [("width", "0")]).width = none ∧
        (resizeSpecOf [("height", "0")]).height = none) :=
  ⟨by decide, c10_zero_treated_as_absent "0" (by decide)⟩

/-- C9: the outer try/catch makes every invocation end in exactly one of
two modes — a single callback with no log line, or (on any exception,
e.g. a throwing fetch or codec) exactly one diagnostic log line with the
callback never invoked, so no response value is produced. -/
theorem c9_exception_no_response (ev : CFEvent) (o : Oracles) :
    (((handler ev o).logLines = 0 ∧ ∃ r, (handler ev o).callbackResponses = [r]) ∨
      ((handler ev o).logLines = 1 ∧ (handler ev o).callbackResponses = [])) ∧
    (∀ bucket key, shouldSkipProcessing ev.request ev.response = false →
        extractBucketDetails ev.request = Except.ok (some bucket) →
        jsDecodeURIComponent (jsSubstringFrom1 ev.request.uri) = Except.ok key →
        o.fetch bucket key = Except.error () →
        handler ev o = ⟨[], 1, [(bucket, key)], []⟩) ∧
    (∀ bucket key object image0 ct0,
        shouldSkipProcessing ev.request ev.response = false →
        extractBucketDetails ev.request = Except.ok (some bucket) →
        jsDecodeURIComponent (jsSubstringFrom1 ev.request.uri) = Except.ok key →
        o.fetch bucket key = Except.ok object →
        shouldSkipImageProcessing object allowedContentTypes = false →
        (decide (object.ContentType = some "image/gif") &&
          (o.animated object.Body ||
            decide (paramsGet (parseParams ev.request.querystring) "format" = some "original"))) = false →
        formatStage object ev.request (parseParams ev.request.querystring)
            (paramsGet (parseParams ev.request.querystring) "format") = Except.ok (image0, ct0) →
        (∀ img b, o.toBuffer img b = Except.error ()) →
        (handler ev o).callbackResponses = [] ∧ (handler ev o).logLines = 1) := by
  refine ⟨?_, ?_, ?_⟩
  · by_cases h1 : shouldSkipProcessing ev.request ev.response
    · simp [handler, h1]
    · rcases hex : extractBucketDetails ev.request with u | ob
      · simp [handler, h1, hex]
      · rcases ob with _ | bucket
        · simp [handler, h1, hex]
        · rcases hdec : jsDecodeURIComponent (jsSubstringFrom1 ev.request.uri) with u | key
          · simp [handler, h1, hex, hdec]
          · rcases hf : o.fetch bucket key with u | object
            · simp [handler, h1, hex, hdec, hf]
            · by_cases h2 : shouldSkipImageProcessing object allowedContentTypes
              · simp [handler, h1, hex, hdec, hf, h2]
              · by_cases h3 : (decide (object.ContentType = some "image/gif") &&
                    (o.animated object.Body ||
                      decide (paramsGet (parseParams ev.request.querystring) "format"
                        = some "original"))) = true
                · simp [handler, h1, hex, hdec, hf, h2, h3]
                · rcases hfs : formatStage object ev.request (parseParams ev.request.querystring)
                      (paramsGet (parseParams ev.request.querystring) "format") with u | p
                  · simp [handler, h1, hex, hdec, hf, h2, h3, hfs]
                  · rcases p with ⟨image0, ct0⟩
                    by_cases hwh : (paramsHas (parseParams ev.request.querystring) "width" ||
                        paramsHas (parseParams ev.request.querystring) "height") = true
                    · rcases htb : o.toBuffer (applyResize image0 (parseParams ev.request.querystring))
                          object.Body with u | buffer
                      · simp [handler, h1, hex, hdec, hf, h2, h3, hfs, hwh, htb]
                      · by_cases h4 : isResponseTooLarge (base64String buffer)
                        · simp [handler, h1, hex, hdec, hf, h2, h3, hfs, hwh, htb, h4]
                        · rcases ct0 with _ | ct <;>
                            simp [handler, h1, hex, hdec, hf, h2, h3, hfs, hwh, htb, h4]
                    · rcases htb : o.toBuffer image0 object.Body with u | buffer
                      · simp [handler, h1, hex, hdec, hf, h2, h3, hfs, hwh, htb]
                      · by_cases h4 : isResponseTooLarge (base64String buffer)
                        · simp [handler, h1, hex, hdec, hf, h2, h3, hfs, hwh, htb, h4]
                        · rcases ct0 with _ | ct <;>
                            simp [handler, h1, hex, hdec, hf, h2, h3, hfs, hwh, htb, h4]
  · intro bucket key hskip hex hdec hfetch
    simp [handler, hskip, hex, hdec, hfetch]
  · intro bucket key object image0 ct0 hskip hex hdec hfetch hsi hgb hfs htb
    simp [handler, hskip, hex, hdec, hfetch, hsi, hgb, hfs, htb]

theorem c9_exception_no_response_witness :
    handler ⟨sampleRequest "" [], sampleResponse⟩ failingFetchOracles =
      ⟨[], 1, [("mybucket", "img.png")], []⟩ :=
  (c9_exception_no_response ⟨sampleRequest "" [], sampleResponse⟩ failingFetchOracles).2.1
    "mybucket" "img.png" (by decide) (by decide) (by decide) rfl

/-- C3: with `format=original`, a GIF source (animated or not) makes the
handler return the input response unchanged, while a JPEG or PNG source
goes through the pipeline with no re-encode operation configured and a
null content-type decision — the response's headers (in particular its
content-type) stay untouched — with a requested resize still applied. -/
theorem c3_format_original (ev : CFEvent) (o : Oracles) (bucket key : String)
    (object : StoredObject) (buffer : List Nat)
    (hskip : shouldSkipProcessing ev.request ev.response = false)
    (hex : extractBucketDetails ev.request = Except.ok (some bucket))
    (hdec : jsDecodeURIComponent (jsSubstringFrom1 ev.request.uri) = Except.ok key)
    (hfetch : o.fetch bucket key = Except.ok object)
    (hfmt : paramsGet (parseParams ev.request.querystring) "format" = some "original") :
    (object.ContentType = some "image/gif" →
        (handler ev o).callbackResponses = [ev.response] ∧ (handler ev o).logLines = 0) ∧
    ((object.ContentType = some "image/jpeg" ∨ object.ContentType = some "image/png") →
      o.toBuffer
          (if paramsHas (parseParams ev.request.querystring) "width" ||
              paramsHas (parseParams ev.request.querystring) "height" then
            [ImageOp.resize (resizeSpecOf (parseParams ev.request.querystring))]
          else []) object.Body = Except.ok buffer →
      isResponseTooLarge (base64String buffer) = false →
      (handler ev o).callbackResponses =
          [{ ev.response with body := some (base64String buffer), bodyEncoding := some "base64" }] ∧
        (handler ev o).toBufferCalls =
          [((if paramsHas (parseParams ev.request.querystring) "width" ||
                paramsHas (parseParams ev.request.querystring) "height" then
              [ImageOp.resize (resizeSpecOf (parseParams ev.request.querystring))]
            else []), object.Body)]) := by
  constructor
  · intro hgif
    have hsi : shouldSkipImageProcessing object allowedContentTypes = false := by
      simp [shouldSkipImageProcessing, hgif, jsFalsyStr, allowedContentTypes]
    simp [handler, hskip, hex, hdec, hfetch, hsi, hgif, hfmt]
  · intro hct htb hsize
    have hsi : shouldSkipImageProcessing object allowedContentTypes = false := by
      rcases hct with hct | hct <;>
        simp [shouldSkipImageProcessing, hct, jsFalsyStr, allowedContentTypes]
    have hgb : ¬ object.ContentType = some "image/gif" := by
      rcases hct with hct | hct <;> simp [hct]
    by_cases hwh : (paramsHas (parseParams ev.request.querystring) "width" ||
        paramsHas (parseParams ev.request.querystring) "height") = true
    · rw [if_pos hwh] at htb
      simp [handler, hskip, hex, hdec, hfetch, hsi, hgb, hfmt, formatStage, applyResize,
        hwh, htb, hsize]
    · rw [if_neg hwh] at htb
      simp [handler, hskip, hex, hdec, hfetch, hsi, hgb, hfmt, formatStage, applyResize,
        hwh, htb, hsize]

theorem c3_format_original_witness :
    (handler ⟨sampleRequest "format=original&width=150&height=100" [], sampleResponse⟩
        jpegOracles).callbackResponses =
      [{ sampleResponse with
          body := some (base64String [1, 2, 3]), bodyEncoding := some "base64" }] ∧
    (handler ⟨sampleRequest "format=original&width=150&height=100" [], sampleResponse⟩
        jpegOracles).toBufferCalls =
      [((if paramsHas (parseParams "format=original&width=150&height=100") "width" ||
            paramsHas (parseParams "format=original&width=150&height=100") "height" then
          [ImageOp.resize (resizeSpecOf (parseParams "format=original&width=150&height=100"))]
        else []), [9])] :=
  (c3_format_original ⟨sampleRequest "format=original&width=150&height=100" [], sampleResponse⟩
      jpegOracles "mybucket" "img.png" ⟨some "image/jpeg", [9]⟩ [1, 2, 3]
      (by decide) (by decide) (by decide) rfl (by decide)).2
    (Or.inl rfl) (by decide) (by decide)

/-- C4 counterexample: with the unrecognized explicit value `format=avif`
on a GIF source whose request accepts `image/webp`, `processImageFormat`
returns immediately with no encoding operation and a null content-type —
it does NOT fall through to the GIF-to-PNG and Accept-webp rules, which
(second conjunct) would have produced a png-then-webp configuration and
an `image/webp` content-type had the directive been absent. -/
theorem c4_no_fallthrough_counterexample :
    processImageFormat [] ⟨some "image/gif", [9, 9]⟩ cx4Request (parseParams "format=avif")
        (some "avif") = Except.ok ([], none) ∧
      processImageFormat [] ⟨some "image/gif", [9, 9]⟩ cx4Request (parseParams "format=avif")
          none =
        Except.ok ([ImageOp.png, ImageOp.webp (some 82)],
          some [⟨some "Content-Type", "image/webp"⟩]) := by
  decide

/-- C4 (amended): an explicit, non-empty format value other than exactly
`auto` that lower-cases to `webp`, `png`, `jpeg` or `jpg` forces that
encoding and the canonical MIME content-type; any other such value
short-circuits the resolver with no encoding operation and a null
content-type, skipping the GIF-to-PNG and Accept-webp rules. -/
theorem c4_explicit_format_resolution (image : Image) (object : StoredObject)
    (request : CFRequest) (params : List (String × String)) (s : String)
    (hne : s ≠ "") (hna : s ≠ "auto") :
    (jsToLowerCase s = "webp" → processImageFormat image object request params (some s) =
        Except.ok (image ++ [ImageOp.webp none], some [⟨some "Content-Type", "image/webp"⟩])) ∧
    (jsToLowerCase s = "png" → processImageFormat image object request params (some s) =
        Except.ok (image ++ [ImageOp.png], some [⟨some "Content-Type", "image/png"⟩])) ∧
    ((jsToLowerCase s = "jpeg" ∨ jsToLowerCase s = "jpg") →
        processImageFormat image object request params (some s) =
          Except.ok (image ++ [ImageOp.jpeg], some [⟨some "Content-Type", "image/jpeg"⟩])) ∧
    (jsToLowerCase s ≠ "webp" → jsToLowerCase s ≠ "png" → jsToLowerCase s ≠ "jpeg" →
        jsToLowerCase s ≠ "jpg" →
        processImageFormat image object request params (some s) = Except.ok (image, none)) := by
  have hguard : (!jsFalsyStr (some s) && decide ((some s : Option String) ≠ some "auto")) = true := by
    simp [jsFalsyStr, hne, hna]
  refine ⟨?_, ?_, ?_, ?_⟩
  · intro h
    unfold processImageFormat
    rw [if_pos hguard]
    simp [applyExplicitFormat, h]
  · intro h
    unfold processImageFormat
    rw [if_pos hguard]
    simp [applyExplicitFormat, h]
  · rintro (h | h) <;>
      · unfold processImageFormat
        rw [if_pos hguard]
        simp [applyExplicitFormat, h]
  · intro h1 h2 h3 h4
    unfold processImageFormat
    rw [if_pos hguard]
    unfold applyExplicitFormat
    split <;> simp_all

theorem c4_explicit_format_resolution_witness :
    (jsToLowerCase "WebP" = "webp" ∧
        processImageFormat [] ⟨some "image/gif", [9, 9]⟩ cx4Request [] (some "WebP") =
          Except.ok ([ImageOp.webp none], some [⟨some "Content-Type", "image/webp"⟩])) ∧
      processImageFormat [] ⟨some "image/gif", [9, 9]⟩ cx4Request [] (some "avif") =
        Except.ok ([], none) :=
  ⟨⟨by decide, (c4_explicit_format_resolution [] ⟨some "image/gif", [9, 9]⟩ cx4Request []
      "WebP" (by decide) (by decide)).1 (by decide)⟩,
    (c4_explicit_format_resolution [] ⟨some "image/gif", [9, 9]⟩ cx4Request []
      "avif" (by decide) (by decide)).2.2.2 (by decide) (by decide) (by decide) (by decide)⟩

/-- C5 counterexample: an eligible non-animated GIF with the unrecognized
explicit directive `format=bmp` (hence "no recognized explicit format
directive") and an accept header without `image/webp` is emitted with
its content-type header left untouched (still the origin's `image/gif`),
not the `image/png` the claim requires. -/
theorem c5_unrecognized_format_counterexample :
    (handler ⟨⟨"/img.gif", "format=bmp", some ⟨some ⟨"mybucket.s3.amazonaws.com"⟩⟩,
          [("accept", [⟨none, "text/html"⟩])]⟩, sampleResponse⟩
        (gifOracles false)).callbackResponses =
      [{ sampleResponse with body := some "AQID", bodyEncoding := some "base64" }] ∧
    headerLookup ({ sampleResponse with body := some "AQID", bodyEncoding := some "base64" }
        : CFResponse).headers "content-type" ≠
      some [⟨some "Content-Type", "image/png"⟩] := by
  decide

/-- C5 (amended): for every eligible non-animated GIF whose `format`
directive is absent, empty, or exactly `auto`: without `image/webp` in
the accept header's first entry the response is emitted with
content-type `image/png`; with it, the webp rule overwrites the
gif-to-png rule and the content-type is `image/webp`.  (An unrecognized
non-empty explicit value instead leaves the header untouched, see the
counterexample.) -/
theorem c5_gif_negotiation (ev : CFEvent) (o : Oracles) (bucket key : String)
    (object : StoredObject) (buffer : List Nat)
    (hskip : shouldSkipProcessing ev.request ev.response = false)
    (hex : extractBucketDetails ev.request = Except.ok (some bucket))
    (hdec : jsDecodeURIComponent (jsSubstringFrom1 ev.request.uri) = Except.ok key)
    (hfetch : o.fetch bucket key = Except.ok object)
    (hgif : object.ContentType = some "image/gif")
    (hanim : o.animated object.Body = false)
    (hfmt : jsFalsyStr (paramsGet (parseParams ev.request.querystring) "format") = true ∨
        paramsGet (parseParams ev.request.querystring) "format" = some "auto")
    (hbuf : ∀ img b, o.toBuffer img b = Except.ok buffer)
    (hsize : isResponseTooLarge (base64String buffer) = false) :
    (headerLookup ev.request.headers "accept" = none →
        ∃ r, (handler ev o).callbackResponses = [r] ∧
          headerLookup r.headers "content-type" = some [⟨some "Content-Type", "image/png"⟩]) ∧
    (∀ e rest, headerLookup ev.request.headers "accept" = some (e :: rest) →
        (strContains e.value "image/webp" = false →
          ∃ r, (handler ev o).callbackResponses = [r] ∧
            headerLookup r.headers "content-type" = some [⟨some "Content-Type", "image/png"⟩]) ∧
        (strContains e.value "image/webp" = true →
          ∃ r, (handler ev o).callbackResponses = [r] ∧
            headerLookup r.headers "content-type" = some [⟨some "Content-Type", "image/webp"⟩])) := by
  have hsi : shouldSkipImageProcessing object allowedContentTypes = false := by
    simp [shouldSkipImageProcessing, hgif, jsFalsyStr, allowedContentTypes]
  have hnorig : ¬ paramsGet (parseParams ev.request.querystring) "format" = some "original" := by
    rcases hfmt with hf | hf
    · cases hv : paramsGet (parseParams ev.request.querystring) "format" with
      | none => simp
      | some s =>
        rw [hv] at hf
        simp only [jsFalsyStr, decide_eq_true_eq] at hf
        simp [hv, hf]
    · simp [hf]
  have hguard : (!jsFalsyStr (paramsGet (parseParams ev.request.querystring) "format") &&
      decide (paramsGet (parseParams ev.request.querystring) "format" ≠ some "auto")) = false := by
    rcases hfmt with hf | hf <;> simp [hf]
  have hfs0 : formatStage object ev.request (parseParams ev.request.querystring)
      (paramsGet (parseParams ev.request.querystring) "format") =
      processImageFormat [] object ev.request (parseParams ev.request.querystring)
        (paramsGet (parseParams ev.request.querystring) "format") := by
    unfold formatStage
    rw [if_neg hnorig]
  constructor
  · intro hacc
    have hpf : processImageFormat [] object ev.request (parseParams ev.request.querystring)
        (paramsGet (parseParams ev.request.querystring) "format") =
        Except.ok ([ImageOp.png], some [⟨some "Content-Type", "image/png"⟩]) := by
      unfold processImageFormat
      simp only [hguard, Bool.false_eq_true, if_false, hgif, if_pos, hacc]
      simp
    refine ⟨{ ev.response with
        headers := setHeader ev.response.headers "content-type"
          [⟨some "Content-Type", "image/png"⟩],
        body := some (base64String buffer), bodyEncoding := some "base64" }, ?_,
      headerLookup_setHeader _ _ _⟩
    simp [handler, hskip, hex, hdec, hfetch, hsi, hgif, hanim, hnorig, hfs0, hpf, hbuf, hsize]
  · intro e rest hacc
    constructor
    · intro hwebp
      have hpf : processImageFormat [] object ev.request (parseParams ev.request.querystring)
          (paramsGet (parseParams ev.request.querystring) "format") =
          Except.ok ([ImageOp.png], some [⟨some "Content-Type", "image/png"⟩]) := by
        unfold processImageFormat
        simp only [hguard, Bool.false_eq_true, if_false, hgif, if_pos, hacc, hwebp]
        simp
      refine ⟨{ ev.response with
          headers := setHeader ev.response.headers "content-type"
            [⟨some "Content-Type", "image/png"⟩],
          body := some (base64String buffer), bodyEncoding := some "base64" }, ?_,
        headerLookup_setHeader _ _ _⟩
      simp [handler, hskip, hex, hdec, hfetch, hsi, hgif, hanim, hnorig, hfs0, hpf, hbuf, hsize]
    · intro hwebp
      have hpf : processImageFormat [] object ev.request (parseParams ev.request.querystring)
          (paramsGet (parseParams ev.request.querystring) "format") =
          Except.ok ([ImageOp.png,
              ImageOp.webp (some (calculateQuality (parseParams ev.request.querystring)))],
            some [⟨some "Content-Type", "image/webp"⟩]) := by
        unfold processImageFormat
        simp only [hguard, Bool.false_eq_true, if_false, hgif, if_pos, hacc, hwebp]
        simp
      refine ⟨{ ev.response with
          headers := setHeader ev.response.headers "content-type"
            [⟨some "Content-Type", "image/webp"⟩],
          body := some (base64String buffer), bodyEncoding := some "base64" }, ?_,
        headerLookup_setHeader _ _ _⟩
      simp [handler, hskip, hex, hdec, hfetch, hsi, hgif, hanim, hnorig, hfs0, hpf, hbuf, hsize]

theorem c5_gif_negotiation_witness :
    (∃ r, (handler ⟨sampleRequest "" [("accept", [⟨none, "image/webp,image/png"⟩])],
          sampleResponse⟩ (gifOracles false)).callbackResponses = [r] ∧
        headerLookup r.headers "content-type" = some [⟨some "Content-Type", "image/webp"⟩]) :=
  ((c5_gif_negotiation ⟨sampleRequest "" [("accept", [⟨none, "image/webp,image/png"⟩])],
        sampleResponse⟩ (gifOracles false) "mybucket" "img.png" ⟨some "image/gif", [9, 9]⟩
      [1, 2, 3] (by decide) (by decide) (by decide) rfl (by decide) (by decide)
      (Or.inl (by decide)) (fun _ _ => rfl) (by decide)).2
    ⟨none, "image/webp,image/png"⟩ [] (by decide)).2 (by decide)

/-- C7: once an invocation reaches the transform stage, the codec's
single materialisation receives a resize operation exactly when `width`
or `height` is present in the query string; the resize options carry the
parsed axes (absent or non-numeric ones as null), fit `cover` exactly
when the `cropped` flag is present and `inside` otherwise, and always
set `withoutEnlargement`. -/
theorem c7_resize_specification (ev : CFEvent) (o : Oracles) (bucket key : String)
    (object : StoredObject) (image0 : Image) (ct0 : Option (List HeaderEntry))
    (hskip : shouldSkipProcessing ev.request ev.response = false)
    (hex : extractBucketDetails ev.request = Except.ok (some bucket))
    (hdec : jsDecodeURIComponent (jsSubstringFrom1 ev.request.uri) = Except.ok key)
    (hfetch : o.fetch bucket key = Except.ok object)
    (hsi : shouldSkipImageProcessing object allowedContentTypes = false)
    (hgb : (decide (object.ContentType = some "image/gif") &&
        (o.animated object.Body ||
          decide (paramsGet (parseParams ev.request.querystring) "format"
            = some "original"))) = false)
    (hfs : formatStage object ev.request (parseParams ev.request.querystring)
        (paramsGet (parseParams ev.request.querystring) "format") = Except.ok (image0, ct0)) :
    (handler ev o).toBufferCalls =
      [((if paramsHas (parseParams ev.request.querystring) "width" ||
            paramsHas (parseParams ev.request.querystring) "height" then
          image0 ++ [ImageOp.resize (resizeSpecOf (parseParams ev.request.querystring))]
        else image0), object.Body)] ∧
    (resizeSpecOf (parseParams ev.request.querystring)).withoutEnlargement = true ∧
    ((resizeSpecOf (parseParams ev.request.querystring)).fit = Fit.cover ↔
      paramsHas (parseParams ev.request.querystring) "cropped" = true) ∧
    ((resizeSpecOf (parseParams ev.request.querystring)).fit = Fit.inside ↔
      paramsHas (parseParams ev.request.querystring) "cropped" = false) ∧
    (resizeSpecOf (parseParams ev.request.querystring)).width =
      jsParseIntOrNull (paramsGet (parseParams ev.request.querystring) "width") ∧
    (resizeSpecOf (parseParams ev.request.querystring)).height =
      jsParseIntOrNull (paramsGet (parseParams ev.request.querystring) "height") ∧
    (paramsGet (parseParams ev.request.querystring) "width" = none →
      (resizeSpecOf (parseParams ev.request.querystring)).width = none) ∧
    (∀ v, paramsGet (parseParams ev.request.querystring) "width" = some v →
      jsParseIntStr v = none →
      (resizeSpecOf (parseParams ev.request.querystring)).width = none) := by
  have hmain : (handler ev o).toBufferCalls =
      [((if paramsHas (parseParams ev.request.querystring) "width" ||
            paramsHas (parseParams ev.request.querystring) "height" then
          image0 ++ [ImageOp.resize (resizeSpecOf (parseParams ev.request.querystring))]
        else image0), object.Body)] := by
    by_cases hwh : (paramsHas (parseParams ev.request.querystring) "width" ||
        paramsHas (parseParams ev.request.querystring) "height") = true
    · rcases htb : o.toBuffer
          (image0 ++ [ImageOp.resize (resizeSpecOf (parseParams ev.request.querystring))])
          object.Body with u | buffer
      · simp [handler, hskip, hex, hdec, hfetch, hsi, hgb, hfs, hwh, htb, applyResize]
      · by_cases h4 : isResponseTooLarge (base64String buffer)
        · simp [handler, hskip, hex, hdec, hfetch, hsi, hgb, hfs, hwh, htb, h4, applyResize]
        · rcases ct0 with _ | ct <;>
            simp [handler, hskip, hex, hdec, hfetch, hsi, hgb, hfs, hwh, htb, h4, applyResize]
    · rcases htb : o.toBuffer image0 object.Body with u | buffer
      · simp [handler, hskip, hex, hdec, hfetch, hsi, hgb, hfs, hwh, htb]
      · by_cases h4 : isResponseTooLarge (base64String buffer)
        · simp [handler, hskip, hex, hdec, hfetch, hsi, hgb, hfs, hwh, htb, h4]
        · rcases ct0 with _ | ct <;>
            simp [handler, hskip, hex, hdec, hfetch, hsi, hgb, hfs, hwh, htb, h4]
  refine ⟨hmain, by simp [resizeSpecOf], ?_, ?_, by simp [resizeSpecOf],
    by simp [resizeSpecOf], ?_, ?_⟩
  · by_cases hc : paramsHas (parseParams ev.request.querystring) "cropped" <;>
      simp [resizeSpecOf, hc]
  · by_cases hc : paramsHas (parseParams ev.request.querystring) "cropped" <;>
      simp [resizeSpecOf, hc]
  · intro hw
    simp [resizeSpecOf, jsParseIntOrNull, jsParseInt, hw]
  · intro v hv hnv
    simp [resizeSpecOf, jsParseIntOrNull, jsParseInt, hv, hnv]

theorem c7_resize_specification_witness :
    (handler ⟨sampleRequest "width=150&cropped" [], sampleResponse⟩ jpegOracles).toBufferCalls =
      [((if paramsHas (parseParams "width=150&cropped") "width" ||
            paramsHas (parseParams "width=150&cropped") "height" then
          [] ++ [ImageOp.resize (resizeSpecOf (parseParams "width=150&cropped"))]
        else []), [9])] ∧
    (resizeSpecOf (parseParams "width=150&cropped")).withoutEnlargement = true ∧
    ((resizeSpecOf (parseParams "width=150&cropped")).fit = Fit.cover ↔
      paramsHas (parseParams "width=150&cropped") "cropped" = true) ∧
    ((resizeSpecOf (parseParams "width=150&cropped")).fit = Fit.inside ↔
      paramsHas (parseParams "width=150&cropped") "cropped" = false) ∧
    (resizeSpecOf (parseParams "width=150&cropped")).width =
      jsParseIntOrNull (paramsGet (parseParams "width=150&cropped") "width") ∧
    (resizeSpecOf (parseParams "width=150&cropped")).height =
      jsParseIntOrNull (paramsGet (parseParams "width=150&cropped") "height") ∧
    (paramsGet (parseParams "width=150&cropped") "width" = none →
      (resizeSpecOf (parseParams "width=150&cropped")).width = none) ∧
    (∀ v, paramsGet (parseParams "width=150&cropped") "width" = some v →
      jsParseIntStr v = none →
      (resizeSpecOf (parseParams "width=150&cropped")).width = none) :=
  c7_resize_specification ⟨sampleRequest "width=150&cropped" [], sampleResponse⟩ jpegOracles
    "mybucket" "img.png" ⟨some "image/jpeg", [9]⟩ [] none
    (by decide) (by decide) (by decide) rfl (by decide) (by decide) (by decide)

theorem b64char_utf8Size (n : Nat) : (b64char n).utf8Size = 1 := by
  have h : n % 64 < 64 := Nat.mod_lt _ (by decide)
  have hall : ∀ m, m < 64 → ((b64Table.getD m 'A').utf8Size = 1) := by decide
  exact hall _ h

theorem padChar_utf8Size : ('=').utf8Size = 1 := by decide

theorem utf8Len_base64EncodeChars : ∀ l : List Nat,
    utf8Len (base64EncodeChars l) = (base64EncodeChars l).length
  | [] => by simp [base64EncodeChars, utf8Len]
  | [b1] => by simp [base64EncodeChars, utf8Len, b64char_utf8Size, padChar_utf8Size]
  | [b1, b2] => by simp [base64EncodeChars, utf8Len, b64char_utf8Size, padChar_utf8Size]
  | b1 :: b2 :: b3 :: rest => by
    simp [base64EncodeChars, utf8Len, b64char_utf8Size, utf8Len_base64EncodeChars rest]
    omega

theorem length_base64EncodeChars : ∀ l : List Nat,
    (base64EncodeChars l).length = 4 * ((l.length + 2) / 3)
  | [] => by simp [base64EncodeChars]
  | [b1] => by simp [base64EncodeChars]
  | [b1, b2] => by simp [base64EncodeChars]
  | b1 :: b2 :: b3 :: rest => by
    simp only [base64EncodeChars, List.length_cons, length_base64EncodeChars rest]
    omega

theorem bufferByteLength_base64 (l : List Nat) :
    bufferByteLength (base64String l) = 4 * ((l.length + 2) / 3) := by
  show utf8Len (base64EncodeChars l) = _
  rw [utf8Len_base64EncodeChars, length_base64EncodeChars]

/-- C8: when the base64-encoded output exceeds 1,330,000 bytes — the
ceiling is measured on the base64 string's UTF-8 byte length, which is
4·⌈n/3⌉ for n raw bytes, not on the raw buffer length — the handler
discards the transformation and calls back with the original response
object, mutating nothing. -/
theorem c8_size_ceiling (ev : CFEvent) (o : Oracles) (bucket key : String)
    (object : StoredObject) (image0 : Image) (ct0 : Option (List HeaderEntry))
    (buffer : List Nat)
    (hskip : shouldSkipProcessing ev.request ev.response = false)
    (hex : extractBucketDetails ev.request = Except.ok (some bucket))
    (hdec : jsDecodeURIComponent (jsSubstringFrom1 ev.request.uri) = Except.ok key)
    (hfetch : o.fetch bucket key = Except.ok object)
    (hsi : shouldSkipImageProcessing object allowedContentTypes = false)
    (hgb : (decide (object.ContentType = some "image/gif") &&
        (o.animated object.Body ||
          decide (paramsGet (parseParams ev.request.querystring) "format"
            = some "original"))) = false)
    (hfs : formatStage object ev.request (parseParams ev.request.querystring)
        (paramsGet (parseParams ev.request.querystring) "format") = Except.ok (image0, ct0))
    (hbuf : ∀ img b, o.toBuffer img b = Except.ok buffer)
    (hbig : isResponseTooLarge (base64String buffer) = true) :
    (handler ev o).callbackResponses = [ev.response] ∧ (handler ev o).logLines = 0 := by
  by_cases hwh : (paramsHas (parseParams ev.request.querystring) "width" ||
      paramsHas (parseParams ev.request.querystring) "height") = true
  · simp [handler, hskip, hex, hdec, hfetch, hsi, hgb, hfs, hwh, hbuf, hbig]
  · simp [handler, hskip, hex, hdec, hfetch, hsi, hgb, hfs, hwh, hbuf, hbig]

theorem c8_size_ceiling_witness :
    (List.replicate 1000000 (0 : Nat)).length ≤ 1330000 ∧
    isResponseTooLarge (base64String (List.replicate 1000000 (0 : Nat))) = true ∧
    (handler ⟨sampleRequest "" [], sampleResponse⟩ bigBufferOracles).callbackResponses =
      [sampleResponse] ∧
    (handler ⟨sampleRequest "" [], sampleResponse⟩ bigBufferOracles).logLines = 0 := by
  have hlen : bufferByteLength (base64String (List.replicate 1000000 (0 : Nat))) = 1333336 := by
    rw [bufferByteLength_base64, List.length_replicate]
  have hbig : isResponseTooLarge (base64String (List.replicate 1000000 (0 : Nat))) = true := by
    unfold isResponseTooLarge
    rw [hlen]
    decide
  refine ⟨by rw [List.length_replicate]; decide, hbig, ?_⟩
  exact c8_size_ceiling ⟨sampleRequest "" [], sampleResponse⟩ bigBufferOracles
    "mybucket" "img.png" ⟨some "image/jpeg", [9]⟩ [] none (List.replicate 1000000 0)
    (by decide) (by decide) (by decide) rfl (by decide) (by decide) (by decide)
    (fun _ _ => rfl) hbig

theorem lowerN_eq_dot {n : Nat} (h : lowerN n = 46) : n = 46 := by
  unfold lowerN at h
  split at h <;> omega

theorem char_eq_dot {c : Char} (h : lowerN c.toNat = 46) : c = '.' := by
  have h2 := lowerN_eq_dot h
  have h3 := Char.ofNat_toNat c
  rw [← h3, h2]

theorem ne_dot_iff (c : Char) : c ≠ '.' ↔ lowerN c.toNat ≠ 46 := by
  constructor
  · intro h hc
    exact h (char_eq_dot hc)
  · intro h
    intro hc
    rw [hc] at h
    exact h (by decide)

theorem lowListN_cons (c : Char) (t : List Char) :
    lowListN (c :: t) = lowerN c.toNat :: lowListN t := rfl

theorem takeWhile_nodot (b r : List Char) (hb : ∀ c ∈ b, c ≠ '.') :
    (b ++ '.' :: r).takeWhile (fun c => c ≠ '.') = b := by
  induction b with
  | nil => simp
  | cons c t ih =>
    have hc : c ≠ '.' := hb c (by simp)
    have ih2 := ih (fun x hx => hb x (by simp [hx]))
    simp [List.takeWhile_cons, hc]
    simpa using ih2

theorem dropWhile_nodot (b r : List Char) (hb : ∀ c ∈ b, c ≠ '.') :
    (b ++ '.' :: r).dropWhile (fun c => c ≠ '.') = '.' :: r := by
  induction b with
  | nil => simp
  | cons c t ih =>
    have hc : c ≠ '.' := hb c (by simp)
    simpa [List.dropWhile_cons, hc] using ih (fun x hx => hb x (by simp [hx]))

theorem lowListN_dropWhile_nodot (l : List Char) :
    lowListN (l.dropWhile (fun c => c ≠ '.')) =
      (lowListN l).dropWhile (fun n => n ≠ 46) := by
  induction l with
  | nil => simp [lowListN]
  | cons c t ih =>
    by_cases hc : c = '.'
    · subst hc
      have h46 : lowerN 46 = 46 := by decide
      simp [lowListN_cons, List.dropWhile_cons, h46]
    · have hn : lowerN c.toNat ≠ 46 := (ne_dot_iff c).mp hc
      simp [lowListN_cons, List.dropWhile_cons, hc, hn]
      simpa using ih

theorem ciStartsWith_of_lowEq {p s : List Char} (h : lowListN s = lowListN p) :
    ciStartsWith p s = true := by
  have hlen : s.length = p.length := by
    have h2 := congrArg List.length h
    simpa [lowListN] using h2
  unfold ciStartsWith
  rw [← hlen, List.take_length, h]
  simp

theorem ciStartsWith_false_of_short {p s : List Char} (h : s.length < p.length) :
    ciStartsWith p s = false := by
  unfold ciStartsWith
  apply decide_eq_false
  intro hc
  have h2 := congrArg List.length hc
  simp only [lowListN, List.length_map, List.length_take] at h2
  omega

theorem s3Search_head (cs : List Char) (b : List Char) (h : tryS3At cs = some b) :
    s3Search cs = some b := by
  cases cs with
  | nil => simp [tryS3At] at h
  | cons c rest => simp [s3Search, h]

theorem tryS3At_shape_noregion (b p1 p2 : List Char)
    (hb : ∀ c ∈ b, c ≠ '.')
    (hp1 : lowListN p1 = lowListN ".s3".toList)
    (hp2 : lowListN p2 = lowListN ".amazonaws.com".toList) :
    tryS3At (b ++ p1 ++ p2) = some b := by
  rw [show lowListN ".s3".toList = [46, 115, 51] from by decide] at hp1
  rw [show lowListN ".amazonaws.com".toList =
      [46, 97, 109, 97, 122, 111, 110, 97, 119, 115, 46, 99, 111, 109] from by decide] at hp2
  rcases p1 with _ | ⟨c0, p1t⟩
  · simp [lowListN] at hp1
  rcases p1t with _ | ⟨c1, p1t⟩
  · simp [lowListN] at hp1
  rcases p1t with _ | ⟨c2, p1t⟩
  · simp [lowListN] at hp1
  rcases p1t with _ | ⟨c3, p1t⟩
  case cons.cons.cons.cons => simp [lowListN] at hp1
  rw [show lowListN [c0, c1, c2] =
      [lowerN c0.toNat, lowerN c1.toNat, lowerN c2.toNat] from rfl] at hp1
  simp only [List.cons.injEq, and_true] at hp1
  obtain ⟨h0, h1, h2⟩ := hp1
  rcases p2 with _ | ⟨d0, p2t⟩
  · simp [lowListN] at hp2
  rw [show lowListN (d0 :: p2t) = lowerN d0.toNat :: lowListN p2t from rfl] at hp2
  simp only [List.cons.injEq] at hp2
  obtain ⟨hd0, hrest⟩ := hp2
  have hc0 : c0 = '.' := char_eq_dot h0
  have hd0' : d0 = '.' := char_eq_dot hd0
  subst hc0
  subst hd0'
  have hs3c : ciStartsWith ['s', '3'] (c1 :: c2 :: '.' :: p2t) = true := by
    simp [ciStartsWith, lowListN_cons, lowListN, h1, h2]
    decide
  have hfalse : ciStartsWith amazonawsComL
      (p2t.dropWhile (fun c => c ≠ '.')) = false := by
    apply ciStartsWith_false_of_short
    have hD : lowListN (p2t.dropWhile (fun c => c ≠ '.')) = [46, 99, 111, 109] := by
      rw [lowListN_dropWhile_nodot, hrest]
      decide
    have hDlen : (p2t.dropWhile (fun c => c ≠ '.')).length = 4 := by
      have h5 := congrArg List.length hD
      simpa [lowListN] using h5
    rw [hDlen]
    decide
  have htrue : ciStartsWith amazonawsComL ('.' :: p2t) = true := by
    apply ciStartsWith_of_lowEq
    rw [lowListN_cons, hrest]
    decide
  have hrw : b ++ ['.', c1, c2] ++ ('.' :: p2t) = b ++ '.' :: (c1 :: c2 :: '.' :: p2t) := by
    simp
  have hfa : ciStartsWith amazonawsComL
      (List.dropWhile (fun c => !decide (c = '.')) p2t) = false := by
    simpa using hfalse
  unfold tryS3At
  rw [hrw, takeWhile_nodot _ _ hb, dropWhile_nodot _ _ hb]
  simp [hs3c, hfalse, hfa, htrue]

theorem tryS3At_shape_region (b p1 r p2 : List Char)
    (hb : ∀ c ∈ b, c ≠ '.') (hr : ∀ c ∈ r, c ≠ '.')
    (hp1 : lowListN p1 = lowListN ".s3.".toList)
    (hp2 : lowListN p2 = lowListN ".amazonaws.com".toList) :
    tryS3At (b ++ p1 ++ r ++ p2) = some b := by
  rw [show lowListN ".s3.".toList = [46, 115, 51, 46] from by decide] at hp1
  rw [show lowListN ".amazonaws.com".toList =
      [46, 97, 109, 97, 122, 111, 110, 97, 119, 115, 46, 99, 111, 109] from by decide] at hp2
  rcases p1 with _ | ⟨c0, p1t⟩
  · simp [lowListN] at hp1
  rcases p1t with _ | ⟨c1, p1t⟩
  · simp [lowListN] at hp1
  rcases p1t with _ | ⟨c2, p1t⟩
  · simp [lowListN] at hp1
  rcases p1t with _ | ⟨c3, p1t⟩
  · simp [lowListN] at hp1
  rcases p1t with _ | ⟨c4, p1t⟩
  case cons.cons.cons.cons.cons => simp [lowListN] at hp1
  rw [show lowListN [c0, c1, c2, c3] =
      [lowerN c0.toNat, lowerN c1.toNat, lowerN c2.toNat, lowerN c3.toNat] from rfl] at hp1
  simp only [List.cons.injEq, and_true] at hp1
  obtain ⟨h0, h1, h2, h3⟩ := hp1
  rcases p2 with _ | ⟨d0, p2t⟩
  · simp [lowListN] at hp2
  rw [show lowListN (d0 :: p2t) = lowerN d0.toNat :: lowListN p2t from rfl] at hp2
  simp only [List.cons.injEq] at hp2
  obtain ⟨hd0, hrest⟩ := hp2
  have hc0 : c0 = '.' := char_eq_dot h0
  have hc3 : c3 = '.' := char_eq_dot h3
  have hd0' : d0 = '.' := char_eq_dot hd0
  subst hc0
  subst hc3
  subst hd0'
  have hs3c : ciStartsWith ['s', '3'] (c1 :: c2 :: '.' :: (r ++ '.' :: p2t)) = true := by
    simp [ciStartsWith, lowListN_cons, lowListN, h1, h2]
    decide
  have htrue : ciStartsWith amazonawsComL ('.' :: p2t) = true := by
    apply ciStartsWith_of_lowEq
    rw [lowListN_cons, hrest]
    decide
  have hrw : b ++ ['.', c1, c2, '.'] ++ r ++ ('.' :: p2t) =
      b ++ '.' :: (c1 :: c2 :: '.' :: (r ++ '.' :: p2t)) := by
    simp
  unfold tryS3At
  rw [hrw, takeWhile_nodot _ _ hb, dropWhile_nodot _ _ hb]
  have hregion : (r ++ '.' :: p2t).dropWhile (fun c => c ≠ '.') = '.' :: p2t :=
    dropWhile_nodot r p2t hr
  have hregion2 : List.dropWhile (fun c => !decide (c = '.')) (r ++ '.' :: p2t) = '.' :: p2t := by
    simpa using hregion
  simp [hs3c, hregion, hregion2, htrue]

theorem extractBucketDetails_of_search (request : CFRequest) (host : String)
    (b : List Char) (horig : request.origin = some ⟨some ⟨host⟩⟩)
    (hsearch : s3Search host.toList = some b) (hbne : b ≠ []) :
    extractBucketDetails request = Except.ok (some (String.mk b)) := by
  have hsearch2 : s3Search host.data = some b := hsearch
  simp [extractBucketDetails, horig, hsearch2, hbne]

theorem handler_fetchCalls (ev : CFEvent) (o : Oracles) (bucket key : String)
    (hskip : shouldSkipProcessing ev.request ev.response = false)
    (hex : extractBucketDetails ev.request = Except.ok (some bucket))
    (hdec : jsDecodeURIComponent (jsSubstringFrom1 ev.request.uri) = Except.ok key) :
    (handler ev o).fetchCalls = [(bucket, key)] := by
  rcases hf : o.fetch bucket key with u | object
  · simp [handler, hskip, hex, hdec, hf]
  · by_cases h2 : shouldSkipImageProcessing object allowedContentTypes
    · simp [handler, hskip, hex, hdec, hf, h2]
    · by_cases h3 : (decide (object.ContentType = some "image/gif") &&
          (o.animated object.Body ||
            decide (paramsGet (parseParams ev.request.querystring) "format"
              = some "original"))) = true
      · simp [handler, hskip, hex, hdec, hf, h2, h3]
      · rcases hfs : formatStage object ev.request (parseParams ev.request.querystring)
            (paramsGet (parseParams ev.request.querystring) "format") with u | p
        · simp [handler, hskip, hex, hdec, hf, h2, h3, hfs]
        · rcases p with ⟨image0, ct0⟩
          by_cases hwh : (paramsHas (parseParams ev.request.querystring) "width" ||
              paramsHas (parseParams ev.request.querystring) "height") = true
          · rcases htb : o.toBuffer
                (image0 ++ [ImageOp.resize (resizeSpecOf (parseParams ev.request.querystring))])
                object.Body with u | buffer
            · simp [handler, hskip, hex, hdec, hf, h2, h3, hfs, hwh, htb, applyResize]
            · by_cases h4 : isResponseTooLarge (base64String buffer)
              · simp [handler, hskip, hex, hdec, hf, h2, h3, hfs, hwh, htb, h4, applyResize]
              · rcases ct0 with _ | ct <;>
                  simp [handler, hskip, hex, hdec, hf, h2, h3, hfs, hwh, htb, h4, applyResize]
          · rcases htb : o.toBuffer image0 object.Body with u | buffer
            · simp [handler, hskip, hex, hdec, hf, h2, h3, hfs, hwh, htb]
            · by_cases h4 : isResponseTooLarge (base64String buffer)
              · simp [handler, hskip, hex, hdec, hf, h2, h3, hfs, hwh, htb, h4]
              · rcases ct0 with _ | ct <;>
                  simp [handler, hskip, hex, hdec, hf, h2, h3, hfs, hwh, htb, h4]

/-- C2 counterexample: the origin host `foo.bar.s3.amazonaws.com` is not
of the shape `<bucket>.s3[.<region>].amazonaws.com` (the bucket label
cannot contain a dot), yet instead of passing the response through the
handler matches the substring `bar.s3.amazonaws.com`, fetches with
bucket `bar`, and replaces the response body. -/
theorem c2_unanchored_host_counterexample :
    (handler ⟨⟨"/img.png", "", some ⟨some ⟨"foo.bar.s3.amazonaws.com"⟩⟩, []⟩, sampleResponse⟩
        jpegOracles).fetchCalls = [("bar", "img.png")] ∧
      (handler ⟨⟨"/img.png", "", some ⟨some ⟨"foo.bar.s3.amazonaws.com"⟩⟩, []⟩, sampleResponse⟩
          jpegOracles).callbackResponses ≠ [sampleResponse] := by
  decide

/-- C2 (amended): for an invocation with status "200" and a decodable
URI, every origin host name that is exactly of the shape
`<bucket>.s3.amazonaws.com` or `<bucket>.s3.<region>.amazonaws.com`
(bucket a non-empty dot-free label, literals case-insensitive) has its
bucket captured and the pipeline proceeds to the storage fetch; the
regex being unanchored, hosts merely containing such a substring also
proceed (see the counterexample), and only when the search finds no
match — or an empty bucket capture — is the input response returned
unchanged. -/
theorem c2_host_pattern (ev : CFEvent) (o : Oracles) (host key : String)
    (horig : ev.request.origin = some ⟨some ⟨host⟩⟩)
    (hst : ev.response.status = "200")
    (hdec : jsDecodeURIComponent (jsSubstringFrom1 ev.request.uri) = Except.ok key) :
    (∀ b p1 p2 : List Char, b ≠ [] → (∀ c ∈ b, c ≠ '.') →
      lowListN p1 = lowListN ".s3".toList →
      lowListN p2 = lowListN ".amazonaws.com".toList →
      host = String.mk (b ++ p1 ++ p2) →
      (handler ev o).fetchCalls = [(String.mk b, key)]) ∧
    (∀ b p1 r p2 : List Char, b ≠ [] → (∀ c ∈ b, c ≠ '.') → (∀ c ∈ r, c ≠ '.') →
      lowListN p1 = lowListN ".s3.".toList →
      lowListN p2 = lowListN ".amazonaws.com".toList →
      host = String.mk (b ++ p1 ++ r ++ p2) →
      (handler ev o).fetchCalls = [(String.mk b, key)]) ∧
    ((s3Search host.toList = none ∨ s3Search host.toList = some []) →
      (handler ev o).callbackResponses = [ev.response] ∧ (handler ev o).logLines = 0) := by
  refine ⟨?_, ?_, ?_⟩
  · intro b p1 p2 hbne hb hp1 hp2 hhost
    have hsearch : s3Search host.toList = some b := by
      rw [hhost]
      exact s3Search_head _ _ (tryS3At_shape_noregion b p1 p2 hb hp1 hp2)
    have hex := extractBucketDetails_of_search ev.request host b horig hsearch hbne
    have hne : host ≠ "" := by
      rw [hhost]
      intro hc
      have hdata := congrArg String.data hc
      simp only [String.data] at hdata
      rcases List.append_eq_nil.mp (List.append_eq_nil.mp hdata).1 with ⟨hb0, _⟩
      exact hbne hb0
    have hskip : shouldSkipProcessing ev.request ev.response = false := by
      simp [shouldSkipProcessing, horig, hst, hne]
    exact handler_fetchCalls ev o _ key hskip hex hdec
  · intro b p1 r p2 hbne hb hr hp1 hp2 hhost
    have hsearch : s3Search host.toList = some b := by
      rw [hhost]
      exact s3Search_head _ _ (tryS3At_shape_region b p1 r p2 hb hr hp1 hp2)
    have hex := extractBucketDetails_of_search ev.request host b horig hsearch hbne
    have hne : host ≠ "" := by
      rw [hhost]
      intro hc
      have hdata := congrArg String.data hc
      simp only [String.data] at hdata
      rcases List.append_eq_nil.mp
        (List.append_eq_nil.mp (List.append_eq_nil.mp hdata).1).1 with ⟨hb0, _⟩
      exact hbne hb0
    have hskip : shouldSkipProcessing ev.request ev.response = false := by
      simp [shouldSkipProcessing, horig, hst, hne]
    exact handler_fetchCalls ev o _ key hskip hex hdec
  · intro hno
    by_cases hsk : shouldSkipProcessing ev.request ev.response
    · simp [handler, hsk]
    · have hex : extractBucketDetails ev.request = Except.ok none := by
        rcases hno with h | h
        · have h2 : s3Search host.data = none := h
          simp [extractBucketDetails, horig, h2]
        · have h2 : s3Search host.data = some [] := h
          simp [extractBucketDetails, horig, h2]
      simp [handler, hsk, hex]

theorem c2_host_pattern_witness :
    (handler ⟨⟨"/img.png", "", some ⟨some ⟨"photos.S3.eu-west-2.amazonaws.com"⟩⟩, []⟩,
        sampleResponse⟩ jpegOracles).fetchCalls = [(String.mk "photos".toList, "img.png")] :=
  (c2_host_pattern ⟨⟨"/img.png", "", some ⟨some ⟨"photos.S3.eu-west-2.amazonaws.com"⟩⟩, []⟩,
      sampleResponse⟩ jpegOracles "photos.S3.eu-west-2.amazonaws.com" "img.png"
    rfl rfl (by decide)).2.1
    "photos".toList ".S3.".toList "eu-west-2".toList ".amazonaws.com".toList
    (by decide) (by decide) (by decide) (by decide) (by decide) (by decide)
